import Mathlib

/-!
# Smart-attend server: attendance marking, roster listing and timed messages

A shallow embedding of the four request handlers of `src/main.js`
(`GET /students`, `POST /attendance`, `POST /messages`, `GET /messages`)
over an explicit document store, followed by the properties of the
specification that concern them.

Modelling conventions.

* A timestamp is the integer number of milliseconds of a JavaScript `Date`.
* The store is total: every query and every insert succeeds, so the `catch`
  branches (HTTP 500) of the handlers are not represented.
* A collection is the list of its documents in the store's enumeration order;
  an insert appends.
* Request bodies are typed.  A field that is absent from the body behaves,
  under the `!x` tests of the handlers, exactly like the empty string (or the
  number zero), and is represented by it.
* The server clock is a function `clk : Nat → Timestamp`; `clk n` is the value
  of the `n`-th clock reading made while the request is served.
* Local time is UTC shifted by a fixed offset `tz`, and a duration is a whole
  number of minutes.
-/

namespace SmartAttend

/-! ## Data model -/

/-- Milliseconds since the epoch: the numeric value of a JavaScript date. -/
abbrev Timestamp := Int

/-- Number of milliseconds in a day. -/
def msPerDay : Int := 86400000

/-- Local midnight of the day that contains `t`, as computed by
`new Date(t).setHours(0, 0, 0, 0)` on a server whose local time is UTC
shifted by `tz` milliseconds. -/
def startOfDay (tz : Int) (t : Timestamp) : Timestamp :=
  t - (t + tz) % msPerDay

/-- A document of the Users collection (the fields read by `src/main.js`). -/
structure User where
  _id : Nat
  name : String
  rollNumber : String
  email : String
  role : String
deriving DecidableEq, Repr

/-- Modelled from the spec: the Attendance schema of `models/attendance.js`,
which is not among the sources.  The spec lists its attributes: unique
identifier, reference to the owning student, denormalised roll number, status
and creation timestamp. -/
structure AttendanceRecord where
  _id : Nat
  studentId : Nat
  rollNumber : String
  status : String
  createdAt : Timestamp
deriving DecidableEq, Repr

/-- Modelled from the spec: the Message schema of `models/message.js`, which
is not among the sources.  The spec lists its attributes: unique identifier,
issuing teacher, body text, start timestamp and duration in minutes. -/
structure Message where
  _id : Nat
  teacherId : String
  message : String
  duration : Int
  startTime : Timestamp
deriving DecidableEq, Repr

/-- The record store: three collections and the supply of fresh identifiers. -/
structure Store where
  users : List User
  attendance : List AttendanceRecord
  messages : List Message
  nextId : Nat
deriving DecidableEq, Repr

/-! ## Store queries -/

/-- The query `User.find({ role: 'student' })`. -/
def findStudents (users : List User) : List User :=
  users.filter (fun u => u.role == "student")

/-- The query `User.findOne({ rollNumber, role: 'student' })`. -/
def findOneStudent (users : List User) (rollNumber : String) : Option User :=
  users.find? (fun u => u.rollNumber == rollNumber && u.role == "student")

/-- The query `Attendance.findOne({ studentId, createdAt: { $gte: since } })`. -/
def findOneAttendance (attendance : List AttendanceRecord) (studentId : Nat)
    (since : Timestamp) : Option AttendanceRecord :=
  attendance.find? (fun a => a.studentId == studentId && decide (since ≤ a.createdAt))

/-- Modelled from the spec: `new Attendance({ studentId, rollNumber, status })`
followed by `save()`, for the Attendance schema of `models/attendance.js`
that is not among the sources: the document receives a fresh identifier and
its creation timestamp is the time `now` of the save. -/
def newAttendance (s : Store) (studentId : Nat) (rollNumber status : String)
    (now : Timestamp) : AttendanceRecord :=
  { _id := s.nextId, studentId := studentId, rollNumber := rollNumber,
    status := status, createdAt := now }

/-- The effect of `attendance.save()` on the store. -/
def saveAttendance (s : Store) (a : AttendanceRecord) : Store :=
  { s with attendance := s.attendance ++ [a], nextId := s.nextId + 1 }

/-- Modelled from the spec: `new Message({ teacherId, message, duration })`
for the Message schema of `models/message.js` that is not among the sources:
the spec has `startTime` default to the creation time `now`. -/
def newMessage (s : Store) (teacherId message : String) (duration : Int)
    (now : Timestamp) : Message :=
  { _id := s.nextId, teacherId := teacherId, message := message,
    duration := duration, startTime := now }

/-- The effect of `newMessage.save()` on the store. -/
def saveMessage (s : Store) (m : Message) : Store :=
  { s with messages := s.messages ++ [m], nextId := s.nextId + 1 }

/-! ## `GET /students` -/

/-- One element of the roster returned by `GET /students`. -/
structure RosterEntry where
  _id : Nat
  name : String
  rollNumber : String
  email : String
  attendanceStatus : String
deriving DecidableEq, Repr

/-- Responses of `GET /students`. -/
inductive RosterResponse where
  | notFound
  | ok (studentsWithAttendance : List RosterEntry)
deriving DecidableEq, Repr

/-- The callback of `students.map`: the roster entry of one student, the
clock reading `now` being the `new Date()` of that callback. -/
def rosterEntry (tz : Int) (attendance : List AttendanceRecord) (now : Timestamp)
    (student : User) : RosterEntry :=
  let attendanceRecord := findOneAttendance attendance student._id (startOfDay tz now)
  { _id := student._id, name := student.name, rollNumber := student.rollNumber,
    email := student.email,
    attendanceStatus :=
      match attendanceRecord with
      | some r => r.status
      | none => "Not Marked" }

/-- The array built by `students.map(...)`, the `i`-th callback making clock
reading `i`. -/
def studentsWithAttendance (tz : Int) (clk : Nat → Timestamp)
    (attendance : List AttendanceRecord) : Nat → List User → List RosterEntry
  | _, [] => []
  | i, student :: rest =>
      rosterEntry tz attendance (clk i) student ::
        studentsWithAttendance tz clk attendance (i + 1) rest

/-- The handler of `GET /students`.  `User.find` yields an array, and `!students`
is false for every array, so the 404 branch is never taken. -/
def listStudentsWithTodayStatus (tz : Int) (clk : Nat → Timestamp) (s : Store) :
    RosterResponse :=
  let students := findStudents s.users
  RosterResponse.ok (studentsWithAttendance tz clk s.attendance 0 students)

/-! ## `POST /attendance` -/

/-- One element of `attendanceData`. -/
structure AttendanceEntry where
  rollNumber : String
  status : String
deriving DecidableEq, Repr

/-- Responses of `POST /attendance`. -/
inductive AttendanceResponse where
  | invalidInput
  | invalidEntry
  | notFound (rollNumber : String)
  | alreadyMarked (alreadyMarkedRollNumbers : List String)
  | created (attendanceRecords : List AttendanceRecord)
deriving DecidableEq, Repr

/-- The test `['present', 'absent'].includes(status)`. -/
def statusAllowed (status : String) : Bool :=
  ["present", "absent"].contains status

/-- The `for` loop of `POST /attendance` together with the two returns that
follow it.  Iteration `i` reads the clock twice: reading `2 * i` is the
`new Date()` of the duplicate check, reading `2 * i + 1` the time of the save. -/
def markLoop (tz : Int) (clk : Nat → Timestamp) :
    Nat → Store → List AttendanceEntry → List AttendanceRecord → List String →
      AttendanceResponse × Store
  | _, s, [], attendanceRecords, alreadyMarkedRollNumbers =>
      if alreadyMarkedRollNumbers.length > 0 then
        (AttendanceResponse.alreadyMarked alreadyMarkedRollNumbers, s)
      else
        (AttendanceResponse.created attendanceRecords, s)
  | i, s, record :: rest, attendanceRecords, alreadyMarkedRollNumbers =>
      if record.rollNumber == "" || !statusAllowed record.status then
        (AttendanceResponse.invalidEntry, s)
      else
        match findOneStudent s.users record.rollNumber with
        | none => (AttendanceResponse.notFound record.rollNumber, s)
        | some student =>
            match findOneAttendance s.attendance student._id
                (startOfDay tz (clk (2 * i))) with
            | some _ =>
                markLoop tz clk (i + 1) s rest attendanceRecords
                  (alreadyMarkedRollNumbers ++ [record.rollNumber])
            | none =>
                let attendance :=
                  newAttendance s student._id record.rollNumber record.status
                    (clk (2 * i + 1))
                markLoop tz clk (i + 1) (saveAttendance s attendance) rest
                  (attendanceRecords ++ [attendance]) alreadyMarkedRollNumbers

/-- The handler of `POST /attendance`. -/
def markAttendance (tz : Int) (clk : Nat → Timestamp) (s : Store)
    (attendanceData : List AttendanceEntry) : AttendanceResponse × Store :=
  if attendanceData.length = 0 then
    (AttendanceResponse.invalidInput, s)
  else
    markLoop tz clk 0 s attendanceData [] []

/-! ## `POST /messages` and `GET /messages` -/

/-- The body of `POST /messages`. -/
structure MessageBody where
  teacherId : String
  message : String
  duration : Int
deriving DecidableEq, Repr

/-- Responses of `POST /messages`. -/
inductive CreateMessageResponse where
  | validationError
  | created (newMessage : Message)
deriving DecidableEq, Repr

/-- The handler of `POST /messages`, served at clock reading `now`. -/
def createMessage (now : Timestamp) (s : Store) (body : MessageBody) :
    CreateMessageResponse × Store :=
  if body.message == "" || body.duration == 0 || body.teacherId == "" then
    (CreateMessageResponse.validationError, s)
  else
    let m := newMessage s body.teacherId body.message body.duration now
    (CreateMessageResponse.created m, saveMessage s m)

/-- Responses of `GET /messages`. -/
inductive MessagesResponse where
  | noActiveMessages
  | ok (activeMessages : List Message)
deriving DecidableEq, Repr

/-- The filter of the query of `GET /messages`:
`startTime ≤ currentTime` and `startTime + duration * 60000 > currentTime`. -/
def isActive (currentTime : Timestamp) (m : Message) : Bool :=
  decide (m.startTime ≤ currentTime) &&
    decide (m.startTime + m.duration * 60000 > currentTime)

/-- The handler of `GET /messages`, served at clock reading `currentTime`. -/
def listActiveMessages (currentTime : Timestamp) (s : Store) : MessagesResponse :=
  let activeMessages := s.messages.filter (isActive currentTime)
  if activeMessages.length = 0 then
    MessagesResponse.noActiveMessages
  else
    MessagesResponse.ok activeMessages

/-- The messages carried by a response of `GET /messages`. -/
def MessagesResponse.returned : MessagesResponse → List Message
  | MessagesResponse.noActiveMessages => []
  | MessagesResponse.ok activeMessages => activeMessages

/-- The precondition of `createMessage` in the words of the spec: all three
fields present and non-empty/non-zero, and `durationMinutes > 0`. -/
def createMessagePrecondition (body : MessageBody) : Prop :=
  body.teacherId ≠ "" ∧ body.message ≠ "" ∧ body.duration ≠ 0 ∧ 0 < body.duration

instance (body : MessageBody) : Decidable (createMessagePrecondition body) := by
  unfold createMessagePrecondition; infer_instance

/-! ## Concrete stores and requests used as instances -/

/-- A message that starts at time 100 and lasts one minute. -/
def drill : Message :=
  { _id := 0, teacherId := "T1", message := "Fire drill", duration := 1, startTime := 100 }

/-- A store whose only document is the message `drill`. -/
def drillStore : Store :=
  { users := [], attendance := [], messages := [drill], nextId := 1 }

/-- The empty store. -/
def emptyStore : Store :=
  { users := [], attendance := [], messages := [], nextId := 0 }

/-- A request for a five-minute message. -/
def fiveMinutes : MessageBody :=
  { teacherId := "T1", message := "Fire drill", duration := 5 }

/-- A request whose duration is negative. -/
def negativeDuration : MessageBody :=
  { teacherId := "T1", message := "Fire drill", duration := -5 }

/-- The attendance status that the spec gives a student on the day that
starts at `midnight`: the sentinel when the student has no record created at or
after `midnight`, and otherwise the status of the student's same-day record
(the first one in store order, should there be several). -/
def TodayStatus (attendance : List AttendanceRecord) (studentId : Nat)
    (midnight : Timestamp) (status : String) : Prop :=
  ((∀ r ∈ attendance, r.studentId = studentId → r.createdAt < midnight) ∧
      status = "Not Marked") ∨
  (∃ pre r post, attendance = pre ++ r :: post ∧
      r.studentId = studentId ∧ midnight ≤ r.createdAt ∧
      (∀ x ∈ pre, ¬ (x.studentId = studentId ∧ midnight ≤ x.createdAt)) ∧
      status = r.status)

/-- A student who has been marked present. -/
def asha : User :=
  { _id := 1, name := "Asha", rollNumber := "R1", email := "asha@example.org",
    role := "student" }

/-- A student without any attendance record. -/
def bala : User :=
  { _id := 2, name := "Bala", rollNumber := "R2", email := "bala@example.org",
    role := "student" }

/-- A teacher. -/
def chitra : User :=
  { _id := 3, name := "Chitra", rollNumber := "", email := "chitra@example.org",
    role := "teacher" }

/-- The record that marks `asha` present at time `86400500`, half a second
after the UTC midnight `86400000`. -/
def ashaPresent : AttendanceRecord :=
  { _id := 10, studentId := 1, rollNumber := "R1", status := "present",
    createdAt := 86400500 }

/-- A store with two students and a teacher, in which `asha` is marked. -/
def classStore : Store :=
  { users := [asha, chitra, bala], attendance := [ashaPresent], messages := [],
    nextId := 11 }

/-- A clock that stands at time `86400900`. -/
def noonClock : Nat → Timestamp := fun _ => 86400900

/-! ## The batch semantics of the spec, for comparison with `markLoop` -/

/-- An entry meets the precondition of `markAttendance`: its roll number is
non-empty and its status is `present` or `absent`. -/
def ValidEntry (e : AttendanceEntry) : Prop :=
  e.rollNumber ≠ "" ∧ (e.status = "present" ∨ e.status = "absent")

instance (e : AttendanceEntry) : Decidable (ValidEntry e) := by
  unfold ValidEntry; infer_instance

/-- The roll number of the entry is that of some user of role student. -/
def Resolves (users : List User) (e : AttendanceEntry) : Prop :=
  ∃ student, findOneStudent users e.rollNumber = some student

instance (users : List User) (e : AttendanceEntry) : Decidable (Resolves users e) :=
  decidable_of_iff ((findOneStudent users e.rollNumber).isSome = true)
    Option.isSome_iff_exists

/-- The student `studentId` has an attendance record created at or after
`since`. -/
def hasRecordSince (attendance : List AttendanceRecord) (studentId : Nat)
    (since : Timestamp) : Bool :=
  attendance.any (fun r => r.studentId == studentId && decide (since ≤ r.createdAt))

/-- The store after the records `records` have been persisted, in order. -/
def persist (s : Store) (records : List AttendanceRecord) : Store :=
  { s with attendance := s.attendance ++ records, nextId := s.nextId + records.length }

/-- The batch semantics in the words of the spec, for entries that are valid
and resolve.  The entries are taken in order; for each one the student is
looked up, and if the student already has a record created at or after the
start of the current day the roll number is collected as already marked and
nothing is written, otherwise one new record is persisted at once.  The result
is the list of new records and the list of already-marked roll numbers.  (An
entry that does not resolve ends the batch.) -/
def specMarkBatch (tz : Int) (clk : Nat → Timestamp) :
    Nat → Store → List AttendanceEntry → List AttendanceRecord × List String
  | _, _, [] => ([], [])
  | i, s, e :: rest =>
      match findOneStudent s.users e.rollNumber with
      | none => ([], [])
      | some student =>
          if hasRecordSince s.attendance student._id (startOfDay tz (clk (2 * i))) then
            ((specMarkBatch tz clk (i + 1) s rest).1,
              e.rollNumber :: (specMarkBatch tz clk (i + 1) s rest).2)
          else
            (newAttendance s student._id e.rollNumber e.status (clk (2 * i + 1)) ::
                (specMarkBatch tz clk (i + 1)
                  (saveAttendance s
                    (newAttendance s student._id e.rollNumber e.status (clk (2 * i + 1))))
                  rest).1,
              (specMarkBatch tz clk (i + 1)
                  (saveAttendance s
                    (newAttendance s student._id e.rollNumber e.status (clk (2 * i + 1))))
                  rest).2)

/-- No student has two attendance records created on the same local calendar
day. -/
def OnePerDay (tz : Int) (attendance : List AttendanceRecord) : Prop :=
  attendance.Pairwise (fun a b =>
    a.studentId = b.studentId → startOfDay tz a.createdAt ≠ startOfDay tz b.createdAt)

/-- A batch that marks `bala`, who has no record, and then `asha`, who is
already marked. -/
def balaThenAsha : List AttendanceEntry :=
  [{ rollNumber := "R2", status := "present" }, { rollNumber := "R1", status := "absent" }]

/-- A batch that marks `bala` and then a roll number that nobody has. -/
def balaThenUnknown : List AttendanceEntry :=
  [{ rollNumber := "R2", status := "present" }, { rollNumber := "ZZZ", status := "present" }]

/-- The record that `POST /attendance` creates for `bala` in `classStore` when
the clock stands at `86400900`. -/
def balaPresent : AttendanceRecord :=
  { _id := 11, studentId := 2, rollNumber := "R2", status := "present",
    createdAt := 86400900 }

/-- A batch that re-submits `asha`, who is already marked, and then a roll
number that nobody has. -/
def ashaThenUnknown : List AttendanceEntry :=
  [{ rollNumber := "R1", status := "absent" }, { rollNumber := "ZZZ", status := "present" }]

/-- A batch that marks `bala` alone. -/
def balaOnly : List AttendanceEntry :=
  [{ rollNumber := "R2", status := "present" }]

/-- A batch that names `bala` twice. -/
def balaTwice : List AttendanceEntry :=
  [{ rollNumber := "R2", status := "present" }, { rollNumber := "R2", status := "absent" }]

/-! ## Messages: the active window -/

theorem returned_listActiveMessages (t : Timestamp) (s : Store) :
    (listActiveMessages t s).returned = s.messages.filter (isActive t) := by
  unfold listActiveMessages
  by_cases h : (s.messages.filter (isActive t)).length = 0
  · simp only [h, if_true, MessagesResponse.returned]
    exact (List.length_eq_zero.mp h).symm
  · simp only [h, if_false, MessagesResponse.returned]

theorem isActive_iff (t : Timestamp) (m : Message) :
    isActive t m = true ↔ m.startTime ≤ t ∧ t < m.startTime + m.duration * 60000 := by
  simp [isActive]

theorem mem_returned_iff (t : Timestamp) (s : Store) (m : Message) :
    m ∈ (listActiveMessages t s).returned ↔
      m ∈ s.messages ∧ m.startTime ≤ t ∧ t < m.startTime + m.duration * 60000 := by
  rw [returned_listActiveMessages, List.mem_filter, isActive_iff]

/-- C3: at time `t`, `GET /messages` returns a stored message with start `S`
and duration `D` exactly when `S ≤ t < S + D * 60000`; it returns it as many
times as it is stored (once, for a document stored once), the result being a
sublist of the collection; and it does not return it at any
`t' > S + D * 60000`. -/
theorem listActiveMessages_window (s : Store) (t : Timestamp) (m : Message) :
    (m ∈ (listActiveMessages t s).returned ↔
        m ∈ s.messages ∧ m.startTime ≤ t ∧ t < m.startTime + m.duration * 60000) ∧
    ((listActiveMessages t s).returned.count m =
        if m.startTime ≤ t ∧ t < m.startTime + m.duration * 60000
        then s.messages.count m else 0) ∧
    (listActiveMessages t s).returned.Sublist s.messages ∧
    (∀ t2 : Timestamp, m.startTime + m.duration * 60000 < t2 →
        m ∉ (listActiveMessages t2 s).returned) := by
  refine ⟨mem_returned_iff t s m, ?_, ?_, ?_⟩
  · rw [returned_listActiveMessages]
    by_cases h : m.startTime ≤ t ∧ t < m.startTime + m.duration * 60000
    · rw [if_pos h, List.count_filter ((isActive_iff t m).mpr h)]
    · rw [if_neg h]
      apply List.count_eq_zero_of_not_mem
      intro hmem
      exact h ((isActive_iff t m).mp (List.mem_filter.mp hmem).2)
  · rw [returned_listActiveMessages]
    exact List.filter_sublist s.messages
  · intro t2 ht2 hmem
    have h2 := ((mem_returned_iff t2 s m).mp hmem).2.2
    exact absurd ht2 (not_lt.mpr (le_of_lt h2))

/-- C7, as stated, fails: the message `drill` starts at time 100, so it is
returned at time 100 although it is not returned at the earlier time 50. -/
theorem listActiveMessages_grows_at_start :
    (50 : Timestamp) ≤ 100 ∧
      drill ∈ (listActiveMessages 100 drillStore).returned ∧
      drill ∉ (listActiveMessages 50 drillStore).returned := by
  refine ⟨by decide, ?_, ?_⟩
  · rw [mem_returned_iff]
    exact ⟨List.mem_singleton.mpr rfl, by decide, by decide⟩
  · rw [mem_returned_iff]
    rintro ⟨-, h, -⟩
    exact absurd h (by decide)

/-- C7, amended: for a fixed set of stored messages none of which starts
after `t`, and for all `t ≤ t2`, every message returned at `t2` is also
returned at `t`. -/
theorem listActiveMessages_antitone (s : Store) (t t2 : Timestamp) (htt : t ≤ t2)
    (hstarted : ∀ m ∈ s.messages, m.startTime ≤ t) :
    ∀ m ∈ (listActiveMessages t2 s).returned, m ∈ (listActiveMessages t s).returned := by
  intro m hm
  obtain ⟨hmem, -, hend⟩ := (mem_returned_iff t2 s m).mp hm
  exact (mem_returned_iff t s m).mpr ⟨hmem, hstarted m hmem, lt_of_le_of_lt htt hend⟩

theorem listActiveMessages_antitone_witness :
    ((150 : Timestamp) ≤ 200 ∧ ∀ m ∈ drillStore.messages, m.startTime ≤ 150) ∧
      ∀ m ∈ (listActiveMessages 200 drillStore).returned,
        m ∈ (listActiveMessages 150 drillStore).returned :=
  have h : ∀ m ∈ drillStore.messages, m.startTime ≤ 150 := by
    intro m hm
    rw [List.mem_singleton.mp hm]
    decide
  ⟨⟨by decide, h⟩, listActiveMessages_antitone drillStore 150 200 (by decide) h⟩

theorem createMessage_of_truthy (now : Timestamp) (s : Store) (body : MessageBody)
    (h : ¬ (body.teacherId = "" ∨ body.message = "" ∨ body.duration = 0)) :
    createMessage now s body =
      (CreateMessageResponse.created
          (newMessage s body.teacherId body.message body.duration now),
        saveMessage s (newMessage s body.teacherId body.message body.duration now)) := by
  simp only [not_or] at h
  obtain ⟨h1, h2, h3⟩ := h
  simp [createMessage, h1, h2, h3]

theorem createMessage_of_falsy (now : Timestamp) (s : Store) (body : MessageBody)
    (h : body.teacherId = "" ∨ body.message = "" ∨ body.duration = 0) :
    createMessage now s body = (CreateMessageResponse.validationError, s) := by
  unfold createMessage
  rcases h with h | h | h <;> simp [h]

/-- C9: a message created at server time `T` with duration `D > 0` (and a
non-empty teacher id and body) is persisted with `startTime = T`, and
`GET /messages` at time `t` on the resulting store returns it exactly when
`T ≤ t < T + D * 60000`. -/
theorem createMessage_active_window (s : Store) (body : MessageBody) (T : Timestamp)
    (hteacher : body.teacherId ≠ "") (hbody : body.message ≠ "")
    (hD : 0 < body.duration) :
    ∃ m : Message,
      createMessage T s body = (CreateMessageResponse.created m, saveMessage s m) ∧
      (createMessage T s body).2.messages = s.messages ++ [m] ∧
      m.startTime = T ∧ m.duration = body.duration ∧
      ∀ t : Timestamp, m ∈ (listActiveMessages t (createMessage T s body).2).returned ↔
        T ≤ t ∧ t < T + body.duration * 60000 := by
  have hne : ¬ (body.teacherId = "" ∨ body.message = "" ∨ body.duration = 0) := by
    rintro (h | h | h)
    · exact hteacher h
    · exact hbody h
    · exact absurd hD (by rw [h]; decide)
  refine ⟨newMessage s body.teacherId body.message body.duration T,
    createMessage_of_truthy T s body hne, ?_, rfl, rfl, ?_⟩
  · rw [createMessage_of_truthy T s body hne]; rfl
  · intro t
    rw [createMessage_of_truthy T s body hne, mem_returned_iff]
    constructor
    · rintro ⟨-, h1, h2⟩
      exact ⟨h1, h2⟩
    · rintro ⟨h1, h2⟩
      exact ⟨by simp [saveMessage], h1, h2⟩

theorem createMessage_active_window_witness :
    (fiveMinutes.teacherId ≠ "" ∧ fiveMinutes.message ≠ "" ∧ 0 < fiveMinutes.duration) ∧
      ∃ m : Message,
        createMessage 1000 emptyStore fiveMinutes =
          (CreateMessageResponse.created m, saveMessage emptyStore m) ∧
        (createMessage 1000 emptyStore fiveMinutes).2.messages = emptyStore.messages ++ [m] ∧
        m.startTime = 1000 ∧ m.duration = fiveMinutes.duration ∧
        ∀ t : Timestamp,
          m ∈ (listActiveMessages t (createMessage 1000 emptyStore fiveMinutes).2).returned ↔
            1000 ≤ t ∧ t < 1000 + fiveMinutes.duration * 60000 :=
  ⟨⟨by decide, by decide, by decide⟩,
    createMessage_active_window emptyStore fiveMinutes 1000 (by decide) (by decide)
      (by decide)⟩

/-- C8, as stated, fails: a request with duration `-5` does not meet the
precondition `durationMinutes > 0`, yet it is not rejected with a validation
error: the message is persisted and returned. -/
theorem createMessage_accepts_negative_duration :
    ¬ createMessagePrecondition negativeDuration ∧
      createMessage 1000 emptyStore negativeDuration =
        (CreateMessageResponse.created
            { _id := 0, teacherId := "T1", message := "Fire drill", duration := -5,
              startTime := 1000 },
          { users := [], attendance := [],
            messages := [{ _id := 0, teacherId := "T1", message := "Fire drill",
                           duration := -5, startTime := 1000 }],
            nextId := 1 }) ∧
      (createMessage 1000 emptyStore negativeDuration).1 ≠
        CreateMessageResponse.validationError := by
  have h : ¬ (negativeDuration.teacherId = "" ∨ negativeDuration.message = "" ∨
      negativeDuration.duration = 0) := by decide
  refine ⟨?_, ?_, ?_⟩
  · rintro ⟨-, -, -, h4⟩
    exact absurd h4 (by decide)
  · rw [createMessage_of_truthy 1000 emptyStore negativeDuration h]; rfl
  · rw [createMessage_of_truthy 1000 emptyStore negativeDuration h]
    intro h2
    cases h2

/-- C8, amended: `POST /messages` answers with a validation error exactly when
the teacher id or the body is missing or empty, or the duration is missing or
zero, and then the store is unchanged; for every other request, whatever the
sign of the duration, it persists one new message carrying the three submitted
fields and returns it. -/
theorem createMessage_validation (now : Timestamp) (s : Store) (body : MessageBody) :
    ((createMessage now s body).1 = CreateMessageResponse.validationError ↔
        (body.teacherId = "" ∨ body.message = "" ∨ body.duration = 0)) ∧
    ((createMessage now s body).1 = CreateMessageResponse.validationError →
        (createMessage now s body).2 = s) ∧
    (¬ (body.teacherId = "" ∨ body.message = "" ∨ body.duration = 0) →
        ∃ m : Message,
          createMessage now s body = (CreateMessageResponse.created m, saveMessage s m) ∧
          (createMessage now s body).2.messages = s.messages ++ [m] ∧
          (createMessage now s body).2.users = s.users ∧
          (createMessage now s body).2.attendance = s.attendance ∧
          m.teacherId = body.teacherId ∧ m.message = body.message ∧
          m.duration = body.duration) := by
  by_cases h : body.teacherId = "" ∨ body.message = "" ∨ body.duration = 0
  · rw [createMessage_of_falsy now s body h]
    exact ⟨⟨fun _ => h, fun _ => rfl⟩, fun _ => rfl, fun hn => absurd h hn⟩
  · rw [createMessage_of_truthy now s body h]
    refine ⟨⟨fun h2 => ?_, fun h2 => absurd h2 h⟩, fun h2 => ?_, fun _ => ?_⟩
    · cases h2
    · cases h2
    · exact ⟨_, rfl, rfl, rfl, rfl, rfl, rfl, rfl⟩

/-! ## The roster -/

theorem findOneAttendance_eq_none_iff (attendance : List AttendanceRecord)
    (studentId : Nat) (since : Timestamp) :
    findOneAttendance attendance studentId since = none ↔
      ∀ r ∈ attendance, r.studentId = studentId → r.createdAt < since := by
  unfold findOneAttendance
  rw [List.find?_eq_none]
  constructor
  · intro h r hr hid
    have h2 := h r hr
    simp only [Bool.and_eq_true, beq_iff_eq, decide_eq_true_eq, not_and, not_le] at h2
    exact h2 hid
  · intro h r hr
    simp only [Bool.and_eq_true, beq_iff_eq, decide_eq_true_eq, not_and, not_le]
    exact h r hr

theorem findOneAttendance_eq_some (attendance : List AttendanceRecord)
    (studentId : Nat) (since : Timestamp) (r : AttendanceRecord)
    (h : findOneAttendance attendance studentId since = some r) :
    r.studentId = studentId ∧ since ≤ r.createdAt ∧
      ∃ pre post, attendance = pre ++ r :: post ∧
        ∀ x ∈ pre, ¬ (x.studentId = studentId ∧ since ≤ x.createdAt) := by
  unfold findOneAttendance at h
  rw [List.find?_eq_some] at h
  obtain ⟨hp, pre, post, heq, hpre⟩ := h
  simp only [Bool.and_eq_true, beq_iff_eq, decide_eq_true_eq] at hp
  refine ⟨hp.1, hp.2, pre, post, heq, ?_⟩
  intro x hx hcontra
  have h2 := hpre x hx
  simp [hcontra.1, hcontra.2] at h2

theorem rosterEntry_todayStatus (tz : Int) (attendance : List AttendanceRecord)
    (now : Timestamp) (student : User) :
    TodayStatus attendance student._id (startOfDay tz now)
      (rosterEntry tz attendance now student).attendanceStatus := by
  unfold rosterEntry
  cases hfind : findOneAttendance attendance student._id (startOfDay tz now) with
  | none =>
      left
      exact ⟨(findOneAttendance_eq_none_iff _ _ _).mp hfind, rfl⟩
  | some r =>
      right
      obtain ⟨h1, h2, pre, post, h3, h4⟩ := findOneAttendance_eq_some _ _ _ r hfind
      exact ⟨pre, r, post, h3, h1, h2, h4, rfl⟩

theorem studentsWithAttendance_forall₂ (tz : Int) (clk : Nat → Timestamp)
    (attendance : List AttendanceRecord) (midnight : Timestamp)
    (hday : ∀ i, startOfDay tz (clk i) = midnight) (students : List User) :
    ∀ i : Nat, List.Forall₂
      (fun (u : User) (e : RosterEntry) =>
        e._id = u._id ∧ e.name = u.name ∧ e.rollNumber = u.rollNumber ∧
          e.email = u.email ∧ TodayStatus attendance u._id midnight e.attendanceStatus)
      students (studentsWithAttendance tz clk attendance i students) := by
  induction students with
  | nil => intro i; exact List.Forall₂.nil
  | cons u rest ih =>
      intro i
      refine List.Forall₂.cons ⟨rfl, rfl, rfl, rfl, ?_⟩ (ih (i + 1))
      have h := rosterEntry_todayStatus tz attendance (clk i) u
      rw [hday i] at h
      exact h

/-- C4: when the clock readings of the request fall on one local day, which
starts at `midnight`, `GET /students` succeeds with a roster that has exactly
one entry per user of role student, in the enumeration order of the store; each
entry carries that user's id, name, roll number and email, and its status is
"Not Marked" when the student has no attendance record created at or after
`midnight` and the status of the student's same-day record otherwise.  With no
student in the store the roster is the empty sequence, still a success. -/
theorem listStudentsWithTodayStatus_roster (tz : Int) (clk : Nat → Timestamp)
    (s : Store) (midnight : Timestamp)
    (hday : ∀ i, startOfDay tz (clk i) = midnight) :
    ∃ roster : List RosterEntry,
      listStudentsWithTodayStatus tz clk s = RosterResponse.ok roster ∧
      List.Forall₂
        (fun (u : User) (e : RosterEntry) =>
          e._id = u._id ∧ e.name = u.name ∧ e.rollNumber = u.rollNumber ∧
            e.email = u.email ∧
            TodayStatus s.attendance u._id midnight e.attendanceStatus)
        (s.users.filter (fun u => decide (u.role = "student"))) roster ∧
      ((∀ u ∈ s.users, u.role ≠ "student") → roster = []) := by
  have hfilter : s.users.filter (fun u => decide (u.role = "student")) =
      findStudents s.users := by
    unfold findStudents
    congr 1
  refine ⟨studentsWithAttendance tz clk s.attendance 0 (findStudents s.users), rfl, ?_, ?_⟩
  · rw [hfilter]
    exact studentsWithAttendance_forall₂ tz clk s.attendance midnight hday _ 0
  · intro hnone
    have hempty : findStudents s.users = [] := by
      unfold findStudents
      rw [List.filter_eq_nil_iff]
      intro u hu
      simp [hnone u hu]
    rw [hempty]
    rfl

theorem startOfDay_noonClock (i : Nat) : startOfDay 0 (noonClock i) = 86400000 := by
  simp only [startOfDay, noonClock, msPerDay]
  decide

theorem listStudentsWithTodayStatus_roster_witness :
    (∀ i, startOfDay 0 (noonClock i) = 86400000) ∧
      ∃ roster : List RosterEntry,
        listStudentsWithTodayStatus 0 noonClock classStore = RosterResponse.ok roster ∧
        List.Forall₂
          (fun (u : User) (e : RosterEntry) =>
            e._id = u._id ∧ e.name = u.name ∧ e.rollNumber = u.rollNumber ∧
              e.email = u.email ∧
              TodayStatus classStore.attendance u._id 86400000 e.attendanceStatus)
          (classStore.users.filter (fun u => decide (u.role = "student"))) roster ∧
        ((∀ u ∈ classStore.users, u.role ≠ "student") → roster = []) :=
  ⟨startOfDay_noonClock,
    listStudentsWithTodayStatus_roster 0 noonClock classStore 86400000 startOfDay_noonClock⟩

/-! ## Marking attendance: the loop against the batch semantics -/

theorem statusAllowed_of_valid (e : AttendanceEntry) (h : ValidEntry e) :
    (e.rollNumber == "" || !statusAllowed e.status) = false := by
  obtain ⟨h1, h2⟩ := h
  rcases h2 with h2 | h2 <;> simp [statusAllowed, h1, h2]

theorem hasRecordSince_of_none (attendance : List AttendanceRecord) (studentId : Nat)
    (since : Timestamp) (h : findOneAttendance attendance studentId since = none) :
    hasRecordSince attendance studentId since = false := by
  unfold findOneAttendance at h
  unfold hasRecordSince
  rw [List.find?_eq_none] at h
  rw [List.any_eq_false]
  exact h

theorem hasRecordSince_of_some (attendance : List AttendanceRecord) (studentId : Nat)
    (since : Timestamp) (r : AttendanceRecord)
    (h : findOneAttendance attendance studentId since = some r) :
    hasRecordSince attendance studentId since = true := by
  unfold findOneAttendance at h
  unfold hasRecordSince
  rw [List.any_eq_true]
  exact ⟨r, List.mem_of_find?_eq_some h,
    List.find?_some
      (p := fun a : AttendanceRecord =>
        a.studentId == studentId && decide (since ≤ a.createdAt)) h⟩

theorem persist_nil (s : Store) : persist s [] = s := by
  simp [persist]

theorem persist_saveAttendance (s : Store) (a : AttendanceRecord)
    (l : List AttendanceRecord) :
    persist (saveAttendance s a) l = persist s (a :: l) := by
  simp only [persist, saveAttendance, List.append_assoc, List.singleton_append,
    List.length_cons, Store.mk.injEq, true_and]
  omega

theorem markLoop_append (tz : Int) (clk : Nat → Timestamp) (batch : List AttendanceEntry) :
    ∀ (i : Nat) (s : Store) (rest : List AttendanceEntry)
      (recs : List AttendanceRecord) (marked : List String),
      (∀ e ∈ batch, ValidEntry e ∧ Resolves s.users e) →
      markLoop tz clk i s (batch ++ rest) recs marked =
        markLoop tz clk (i + batch.length) (persist s (specMarkBatch tz clk i s batch).1) rest
          (recs ++ (specMarkBatch tz clk i s batch).1)
          (marked ++ (specMarkBatch tz clk i s batch).2) := by
  induction batch with
  | nil =>
      intro i s rest recs marked _
      simp [specMarkBatch, persist_nil]
  | cons e es ih =>
      intro i s rest recs marked h
      obtain ⟨hvalid, student, hstudent⟩ := h e (List.mem_cons_self e es)
      have hes : ∀ x ∈ es, ValidEntry x ∧ Resolves s.users x :=
        fun x hx => h x (List.mem_cons_of_mem e hx)
      have hidx : i + (e :: es).length = i + 1 + es.length := by
        simp only [List.length_cons]; omega
      rw [List.cons_append, markLoop, statusAllowed_of_valid e hvalid, hidx]
      simp only [Bool.false_eq_true, if_false, hstudent, specMarkBatch]
      cases hfind : findOneAttendance s.attendance student._id (startOfDay tz (clk (2 * i))) with
      | some r =>
          simp only [hasRecordSince_of_some _ _ _ r hfind, if_true]
          rw [ih (i + 1) s rest recs (marked ++ [e.rollNumber]) hes]
          simp
      | none =>
          simp only [hasRecordSince_of_none _ _ _ hfind, Bool.false_eq_true, if_false]
          rw [ih (i + 1)
            (saveAttendance s
              (newAttendance s student._id e.rollNumber e.status (clk (2 * i + 1))))
            rest _ marked hes, persist_saveAttendance]
          simp

theorem markLoop_eq_spec (tz : Int) (clk : Nat → Timestamp) (batch : List AttendanceEntry)
    (i : Nat) (s : Store) (recs : List AttendanceRecord) (marked : List String)
    (h : ∀ e ∈ batch, ValidEntry e ∧ Resolves s.users e) :
    markLoop tz clk i s batch recs marked =
      (if (marked ++ (specMarkBatch tz clk i s batch).2).length > 0 then
          AttendanceResponse.alreadyMarked (marked ++ (specMarkBatch tz clk i s batch).2)
        else
          AttendanceResponse.created (recs ++ (specMarkBatch tz clk i s batch).1),
        persist s (specMarkBatch tz clk i s batch).1) := by
  have happ := markLoop_append tz clk batch i s [] recs marked h
  rw [List.append_nil] at happ
  rw [happ, markLoop]
  split <;> rfl

theorem markAttendance_eq_spec (tz : Int) (clk : Nat → Timestamp) (s : Store)
    (batch : List AttendanceEntry) (hne : batch ≠ [])
    (h : ∀ e ∈ batch, ValidEntry e ∧ Resolves s.users e) :
    markAttendance tz clk s batch =
      (if (specMarkBatch tz clk 0 s batch).2.length > 0 then
          AttendanceResponse.alreadyMarked (specMarkBatch tz clk 0 s batch).2
        else
          AttendanceResponse.created (specMarkBatch tz clk 0 s batch).1,
        persist s (specMarkBatch tz clk 0 s batch).1) := by
  have hlen : ¬ batch.length = 0 := fun h0 => hne (List.length_eq_zero.mp h0)
  unfold markAttendance
  rw [if_neg hlen, markLoop_eq_spec tz clk batch 0 s [] [] h]
  simp only [List.nil_append]

theorem specMarkBatch_length (tz : Int) (clk : Nat → Timestamp)
    (batch : List AttendanceEntry) :
    ∀ (i : Nat) (s : Store), (∀ e ∈ batch, Resolves s.users e) →
      (specMarkBatch tz clk i s batch).1.length + (specMarkBatch tz clk i s batch).2.length =
        batch.length := by
  induction batch with
  | nil =>
      intro i s _
      rfl
  | cons e es ih =>
      intro i s hres
      obtain ⟨student, hstudent⟩ := hres e (List.mem_cons_self e es)
      have hes : ∀ x ∈ es, Resolves s.users x :=
        fun x hx => hres x (List.mem_cons_of_mem e hx)
      simp only [specMarkBatch, hstudent]
      split
      · have h := ih (i + 1) s hes
        simp only [List.length_cons]
        omega
      · have h := ih (i + 1)
          (saveAttendance s
            (newAttendance s student._id e.rollNumber e.status (clk (2 * i + 1)))) hes
        simp only [List.length_cons]
        omega

/-- C10: for a batch whose entries are all valid and all resolve to students,
the Attendance collection after `POST /attendance` is the collection before
the call followed by the new records of the batch semantics: exactly one record
for each entry whose student had no same-day record when that entry was
processed, and nothing for the other entries, whose roll numbers make up the
already-marked list (each entry contributes to exactly one of the two lists).
The two other collections are unchanged.  The statement does not depend on the
response, so it covers the calls that answer `AlreadyMarked`, which are those
with a non-empty already-marked list: the records inserted for the earlier
entries stay in the store. -/
theorem markAttendance_frame (tz : Int) (clk : Nat → Timestamp) (s : Store)
    (batch : List AttendanceEntry)
    (h : ∀ e ∈ batch, ValidEntry e ∧ Resolves s.users e) :
    (markAttendance tz clk s batch).2.attendance =
        s.attendance ++ (specMarkBatch tz clk 0 s batch).1 ∧
      (markAttendance tz clk s batch).2.users = s.users ∧
      (markAttendance tz clk s batch).2.messages = s.messages ∧
      (specMarkBatch tz clk 0 s batch).1.length + (specMarkBatch tz clk 0 s batch).2.length =
        batch.length ∧
      ((specMarkBatch tz clk 0 s batch).2 ≠ [] →
        (markAttendance tz clk s batch).1 =
          AttendanceResponse.alreadyMarked (specMarkBatch tz clk 0 s batch).2) := by
  have hlen := specMarkBatch_length tz clk batch 0 s (fun e he => (h e he).2)
  by_cases hne : batch = []
  · subst hne
    refine ⟨?_, rfl, rfl, hlen, fun hm => absurd rfl hm⟩
    simp [markAttendance, specMarkBatch]
  · rw [markAttendance_eq_spec tz clk s batch hne h]
    refine ⟨rfl, rfl, rfl, hlen, fun hm => ?_⟩
    have hpos : (specMarkBatch tz clk 0 s batch).2.length > 0 :=
      List.length_pos.mpr hm
    simp only [hpos, if_true]

theorem markAttendance_frame_witness :
    (∀ e ∈ balaThenAsha, ValidEntry e ∧ Resolves classStore.users e) ∧
      ((markAttendance 0 noonClock classStore balaThenAsha).2.attendance =
          classStore.attendance ++ (specMarkBatch 0 noonClock 0 classStore balaThenAsha).1 ∧
        (markAttendance 0 noonClock classStore balaThenAsha).2.users = classStore.users ∧
        (markAttendance 0 noonClock classStore balaThenAsha).2.messages =
          classStore.messages ∧
        (specMarkBatch 0 noonClock 0 classStore balaThenAsha).1.length +
            (specMarkBatch 0 noonClock 0 classStore balaThenAsha).2.length =
          balaThenAsha.length ∧
        ((specMarkBatch 0 noonClock 0 classStore balaThenAsha).2 ≠ [] →
          (markAttendance 0 noonClock classStore balaThenAsha).1 =
            AttendanceResponse.alreadyMarked
              (specMarkBatch 0 noonClock 0 classStore balaThenAsha).2)) ∧
      specMarkBatch 0 noonClock 0 classStore balaThenAsha = ([balaPresent], ["R1"]) :=
  ⟨by decide, markAttendance_frame 0 noonClock classStore balaThenAsha (by decide),
    by decide⟩

/-- C5, as stated, fails: in `classStore` the batch `balaThenUnknown` is
answered with `NotFound` for `ZZZ`, but the record written for the earlier
entry `R2` is in the Attendance collection after the call. -/
theorem markAttendance_unknown_keeps_earlier_insert :
    (∀ u ∈ classStore.users, ¬ (u.rollNumber = "ZZZ" ∧ u.role = "student")) ∧
      (markAttendance 0 noonClock classStore balaThenUnknown).1 =
        AttendanceResponse.notFound "ZZZ" ∧
      (markAttendance 0 noonClock classStore balaThenUnknown).2.attendance =
        [ashaPresent, balaPresent] ∧
      (markAttendance 0 noonClock classStore balaThenUnknown).2.attendance ≠
        classStore.attendance := by
  decide

/-- C5, amended: when the first entry of the batch that does not resolve to a
student is itself valid and the entries before it are valid, `POST /attendance`
answers `NotFound` naming that roll number; the Attendance collection after the
call is the collection before it followed by the records already written for
the earlier entries (one for each earlier entry whose student had no same-day
record when processed), which are not rolled back; when the unknown entry is
first in the batch the store is unchanged. -/
theorem markAttendance_unknown_roll (tz : Int) (clk : Nat → Timestamp) (s : Store)
    (pre : List AttendanceEntry) (e : AttendanceEntry) (post : List AttendanceEntry)
    (hpre : ∀ x ∈ pre, ValidEntry x ∧ Resolves s.users x)
    (hvalid : ValidEntry e)
    (hunknown : findOneStudent s.users e.rollNumber = none) :
    (markAttendance tz clk s (pre ++ e :: post)).1 =
        AttendanceResponse.notFound e.rollNumber ∧
      (markAttendance tz clk s (pre ++ e :: post)).2.attendance =
        s.attendance ++ (specMarkBatch tz clk 0 s pre).1 ∧
      (pre = [] → (markAttendance tz clk s (pre ++ e :: post)).2 = s) := by
  have hlen : ¬ (pre ++ e :: post).length = 0 := by simp
  have hrun : markAttendance tz clk s (pre ++ e :: post) =
      (AttendanceResponse.notFound e.rollNumber,
        persist s (specMarkBatch tz clk 0 s pre).1) := by
    unfold markAttendance
    rw [if_neg hlen, markLoop_append tz clk pre 0 s (e :: post) [] [] hpre, markLoop,
      statusAllowed_of_valid e hvalid]
    have husers : (persist s (specMarkBatch tz clk 0 s pre).1).users = s.users := rfl
    simp only [Bool.false_eq_true, if_false, husers, hunknown]
  rw [hrun]
  refine ⟨rfl, rfl, fun hnil => ?_⟩
  subst hnil
  simp [specMarkBatch, persist_nil]

theorem markAttendance_unknown_roll_witness :
    ((∀ x ∈ [({ rollNumber := "R2", status := "present" } : AttendanceEntry)],
          ValidEntry x ∧ Resolves classStore.users x) ∧
        ValidEntry { rollNumber := "ZZZ", status := "present" } ∧
        findOneStudent classStore.users "ZZZ" = none) ∧
      ((markAttendance 0 noonClock classStore
            ([{ rollNumber := "R2", status := "present" }] ++
              { rollNumber := "ZZZ", status := "present" } :: [])).1 =
          AttendanceResponse.notFound "ZZZ" ∧
        (markAttendance 0 noonClock classStore
            ([{ rollNumber := "R2", status := "present" }] ++
              { rollNumber := "ZZZ", status := "present" } :: [])).2.attendance =
          classStore.attendance ++
            (specMarkBatch 0 noonClock 0 classStore
              [{ rollNumber := "R2", status := "present" }]).1 ∧
        (([{ rollNumber := "R2", status := "present" }] : List AttendanceEntry) = [] →
          (markAttendance 0 noonClock classStore
            ([{ rollNumber := "R2", status := "present" }] ++
              { rollNumber := "ZZZ", status := "present" } :: [])).2 = classStore)) :=
  ⟨⟨by decide, by decide, by decide⟩,
    markAttendance_unknown_roll 0 noonClock classStore
      [{ rollNumber := "R2", status := "present" }]
      { rollNumber := "ZZZ", status := "present" } [] (by decide) (by decide) (by decide)⟩

/-! ## Marking attendance: success, duplicates and the daily invariant -/

theorem findOneStudent_some (users : List User) (rollNumber : String) (student : User)
    (h : findOneStudent users rollNumber = some student) :
    student ∈ users ∧ student.rollNumber = rollNumber ∧ student.role = "student" := by
  unfold findOneStudent at h
  have hp := List.find?_some
    (p := fun u : User => u.rollNumber == rollNumber && u.role == "student") h
  simp only [Bool.and_eq_true, beq_iff_eq] at hp
  exact ⟨List.mem_of_find?_eq_some h, hp.1, hp.2⟩

theorem findOneStudent_id_inj (users : List User) (hids : (users.map User._id).Nodup)
    (r1 r2 : String) (s1 s2 : User)
    (h1 : findOneStudent users r1 = some s1) (h2 : findOneStudent users r2 = some s2)
    (hid : s1._id = s2._id) : r1 = r2 := by
  obtain ⟨hm1, hr1, -⟩ := findOneStudent_some users r1 s1 h1
  obtain ⟨hm2, hr2, -⟩ := findOneStudent_some users r2 s2 h2
  have heq : s1 = s2 := List.inj_on_of_nodup_map hids hm1 hm2 hid
  rw [← hr1, ← hr2, heq]

theorem hasRecordSince_eq_false_iff (attendance : List AttendanceRecord) (studentId : Nat)
    (since : Timestamp) :
    hasRecordSince attendance studentId since = false ↔
      ∀ r ∈ attendance, r.studentId = studentId → r.createdAt < since := by
  unfold hasRecordSince
  rw [List.any_eq_false]
  constructor
  · intro h r hr hid
    have h2 := h r hr
    simp only [Bool.and_eq_true, beq_iff_eq, decide_eq_true_eq, not_and, not_le] at h2
    exact h2 hid
  · intro h r hr
    simp only [Bool.and_eq_true, beq_iff_eq, decide_eq_true_eq, not_and, not_le]
    exact h r hr

theorem startOfDay_le (tz : Int) (t : Timestamp) : startOfDay tz t ≤ t := by
  have h : ∀ x y : Int, x - (x + y) % 86400000 ≤ x := by
    intro x y
    omega
  exact h t tz

theorem startOfDay_mono (tz : Int) (a b : Timestamp) (h : a ≤ b) :
    startOfDay tz a ≤ startOfDay tz b := by
  have h2 : ∀ x y z : Int, x ≤ y →
      x - (x + z) % 86400000 ≤ y - (y + z) % 86400000 := by
    intro x y z hxy
    omega
  exact h2 a b tz h

theorem specMarkBatch_all_new (tz : Int) (clk : Nat → Timestamp) (midnight : Timestamp)
    (hm : ∀ j, midnight ≤ startOfDay tz (clk j)) (batch : List AttendanceEntry) :
    ∀ (i : Nat) (s : Store),
      (s.users.map User._id).Nodup →
      (∀ e ∈ batch, Resolves s.users e) →
      (batch.map AttendanceEntry.rollNumber).Nodup →
      (∀ e ∈ batch, ∀ student, findOneStudent s.users e.rollNumber = some student →
        ∀ r ∈ s.attendance, r.studentId = student._id → r.createdAt < midnight) →
      (specMarkBatch tz clk i s batch).2 = [] ∧
        List.Forall₂
          (fun (e : AttendanceEntry) (r : AttendanceRecord) =>
            r.rollNumber = e.rollNumber ∧ r.status = e.status ∧
              ∃ student, findOneStudent s.users e.rollNumber = some student ∧
                r.studentId = student._id)
          batch (specMarkBatch tz clk i s batch).1 := by
  induction batch with
  | nil =>
      intro i s _ _ _ _
      exact ⟨rfl, List.Forall₂.nil⟩
  | cons e es ih =>
      intro i s hids hres hnodup hfresh
      obtain ⟨student, hstudent⟩ := hres e (List.mem_cons_self e es)
      have hfalse : hasRecordSince s.attendance student._id
          (startOfDay tz (clk (2 * i))) = false := by
        rw [hasRecordSince_eq_false_iff]
        intro r hr hid
        exact lt_of_lt_of_le
          (hfresh e (List.mem_cons_self e es) student hstudent r hr hid) (hm (2 * i))
      rw [List.map_cons, List.nodup_cons] at hnodup
      have hrec := ih (i + 1)
        (saveAttendance s
          (newAttendance s student._id e.rollNumber e.status (clk (2 * i + 1))))
        hids (fun x hx => hres x (List.mem_cons_of_mem e hx)) hnodup.2
        (by
          intro x hx sx hsx r hr hid
          have hr2 : r ∈ s.attendance ++
              [newAttendance s student._id e.rollNumber e.status (clk (2 * i + 1))] := hr
          rw [List.mem_append, List.mem_singleton] at hr2
          rcases hr2 with hr2 | hr2
          · exact hfresh x (List.mem_cons_of_mem e hx) sx hsx r hr2 hid
          · exfalso
            have hid2 : student._id = sx._id := by
              rw [← hid, hr2]; rfl
            have hroll := findOneStudent_id_inj s.users hids e.rollNumber x.rollNumber
              student sx hstudent hsx hid2
            exact hnodup.1 (hroll ▸ List.mem_map_of_mem AttendanceEntry.rollNumber hx))
      simp only [specMarkBatch, hstudent, hfalse, Bool.false_eq_true, if_false]
      exact ⟨hrec.1, List.Forall₂.cons ⟨rfl, rfl, student, hstudent, rfl⟩ hrec.2⟩

/-- C1: for a non-empty batch in which every entry has a non-empty roll number
that resolves to a student and a status `present` or `absent`, no roll number
occurs twice, and no resolved student has a record created at or after the
local midnight of the day on which the call starts, `POST /attendance`
succeeds; the records it returns are exactly the records it appends to the
Attendance collection, one per entry and in batch order, the record of an entry
carrying its roll number, the id of the student it resolves to, and its status.
(Identifiers of users are unique, as the store guarantees, and the clock does
not run backwards.) -/
theorem markAttendance_creates_all (tz : Int) (clk : Nat → Timestamp) (s : Store)
    (batch : List AttendanceEntry)
    (hmono : Monotone clk)
    (hids : (s.users.map User._id).Nodup)
    (hne : batch ≠ [])
    (hvalid : ∀ e ∈ batch, ValidEntry e ∧ Resolves s.users e)
    (hnodup : (batch.map AttendanceEntry.rollNumber).Nodup)
    (hfresh : ∀ e ∈ batch, ∀ student, findOneStudent s.users e.rollNumber = some student →
      ∀ r ∈ s.attendance, r.studentId = student._id →
        r.createdAt < startOfDay tz (clk 0)) :
    ∃ recs : List AttendanceRecord,
      (markAttendance tz clk s batch).1 = AttendanceResponse.created recs ∧
      (markAttendance tz clk s batch).2.attendance = s.attendance ++ recs ∧
      recs.length = batch.length ∧
      List.Forall₂
        (fun (e : AttendanceEntry) (r : AttendanceRecord) =>
          r.rollNumber = e.rollNumber ∧ r.status = e.status ∧
            ∃ student, findOneStudent s.users e.rollNumber = some student ∧
              r.studentId = student._id)
        batch recs := by
  have hspec := specMarkBatch_all_new tz clk (startOfDay tz (clk 0))
    (fun j => startOfDay_mono tz (clk 0) (clk j) (hmono (Nat.zero_le j))) batch 0 s hids
    (fun e he => (hvalid e he).2) hnodup hfresh
  refine ⟨(specMarkBatch tz clk 0 s batch).1, ?_, ?_, hspec.2.length_eq.symm, hspec.2⟩
  · rw [markAttendance_eq_spec tz clk s batch hne hvalid, hspec.1]
    rfl
  · rw [markAttendance_eq_spec tz clk s batch hne hvalid]
    rfl

theorem classStore_fresh_bala :
    ∀ e ∈ balaOnly, ∀ student,
      findOneStudent classStore.users e.rollNumber = some student →
        ∀ r ∈ classStore.attendance, r.studentId = student._id →
          r.createdAt < startOfDay 0 (noonClock 0) := by
  intro e he student hst r hr hid
  rw [List.mem_singleton.mp he] at hst
  have hbala : findOneStudent classStore.users "R2" = some bala := by decide
  have hsb : student = bala := by
    rw [hbala] at hst
    exact (Option.some.inj hst).symm
  rw [List.mem_singleton.mp hr, hsb] at hid
  exact absurd hid (by decide)

theorem markAttendance_creates_all_witness :
    (Monotone noonClock ∧ (classStore.users.map User._id).Nodup ∧ balaOnly ≠ [] ∧
        (∀ e ∈ balaOnly, ValidEntry e ∧ Resolves classStore.users e) ∧
        (balaOnly.map AttendanceEntry.rollNumber).Nodup) ∧
      ∃ recs : List AttendanceRecord,
        (markAttendance 0 noonClock classStore balaOnly).1 =
          AttendanceResponse.created recs ∧
        (markAttendance 0 noonClock classStore balaOnly).2.attendance =
          classStore.attendance ++ recs ∧
        recs.length = balaOnly.length ∧
        List.Forall₂
          (fun (e : AttendanceEntry) (r : AttendanceRecord) =>
            r.rollNumber = e.rollNumber ∧ r.status = e.status ∧
              ∃ student, findOneStudent classStore.users e.rollNumber = some student ∧
                r.studentId = student._id)
          balaOnly recs :=
  ⟨⟨monotone_const, by decide, by decide, by decide, by decide⟩,
    markAttendance_creates_all 0 noonClock classStore balaOnly monotone_const (by decide)
      (by decide) (by decide) (by decide) classStore_fresh_bala⟩

theorem specMarkBatch_collects (tz : Int) (clk : Nat → Timestamp) (e : AttendanceEntry)
    (student : User) (r : AttendanceRecord) (hrid : r.studentId = student._id)
    (hday : ∀ j, startOfDay tz (clk j) ≤ r.createdAt) (batch : List AttendanceEntry) :
    ∀ (i : Nat) (s : Store),
      (∀ x ∈ batch, Resolves s.users x) → e ∈ batch →
      findOneStudent s.users e.rollNumber = some student → r ∈ s.attendance →
      e.rollNumber ∈ (specMarkBatch tz clk i s batch).2 := by
  induction batch with
  | nil =>
      intro i s _ he _ _
      exact absurd he (List.not_mem_nil e)
  | cons x xs ih =>
      intro i s hres he hst hr
      obtain ⟨sx, hsx⟩ := hres x (List.mem_cons_self x xs)
      have hxs : ∀ y ∈ xs, Resolves s.users y :=
        fun y hy => hres y (List.mem_cons_of_mem x hy)
      simp only [specMarkBatch, hsx]
      cases hrec : hasRecordSince s.attendance sx._id (startOfDay tz (clk (2 * i))) with
      | true =>
          simp only [if_true]
          rcases List.mem_cons.mp he with hex | hex
          · rw [hex]
            exact List.mem_cons_self _ _
          · exact List.mem_cons_of_mem _ (ih (i + 1) s hxs hex hst hr)
      | false =>
          simp only [Bool.false_eq_true, if_false]
          rcases List.mem_cons.mp he with hex | hex
          · exfalso
            rw [hex, hsx] at hst
            rw [Option.some.inj hst] at hrec
            exact absurd (hday (2 * i))
              (not_le.mpr ((hasRecordSince_eq_false_iff _ _ _).mp hrec r hr hrid))
          · exact ih (i + 1) _ hxs hex hst
              (List.mem_append_left _ hr)

/-- C2, as stated, fails: in `classStore` the student `asha` has a same-day
record, and the batch `ashaThenUnknown` contains an entry with her roll number
`R1`, yet the call is answered with `NotFound` for `ZZZ`, not with
`AlreadyMarked`. -/
theorem markAttendance_duplicate_then_unknown :
    ashaPresent ∈ classStore.attendance ∧ ashaPresent.studentId = asha._id ∧
      startOfDay 0 (noonClock 0) ≤ ashaPresent.createdAt ∧
      ({ rollNumber := asha.rollNumber, status := "absent" } : AttendanceEntry) ∈
        ashaThenUnknown ∧
      (markAttendance 0 noonClock classStore ashaThenUnknown).1 =
        AttendanceResponse.notFound "ZZZ" := by
  decide

/-- C2, amended: let a student have a record `r` created at or after the local
midnight of the day on which the call runs.  For every batch whose entries are
all valid and all resolve to students, and that contains an entry whose roll
number resolves to that student, `POST /attendance` answers `AlreadyMarked`
with a list of roll numbers that includes this roll number; the Attendance
collection after the call is the collection before it followed by new records
only, so `r` is still in the store, unaltered. -/
theorem markAttendance_already_marked (tz : Int) (clk : Nat → Timestamp) (s : Store)
    (batch : List AttendanceEntry) (e : AttendanceEntry) (student : User)
    (r : AttendanceRecord) (midnight : Timestamp)
    (hday : ∀ j, startOfDay tz (clk j) = midnight)
    (hvalid : ∀ x ∈ batch, ValidEntry x ∧ Resolves s.users x)
    (he : e ∈ batch)
    (hst : findOneStudent s.users e.rollNumber = some student)
    (hr : r ∈ s.attendance) (hrid : r.studentId = student._id)
    (hsame : midnight ≤ r.createdAt) :
    ∃ l : List String,
      (markAttendance tz clk s batch).1 = AttendanceResponse.alreadyMarked l ∧
      e.rollNumber ∈ l ∧
      r ∈ (markAttendance tz clk s batch).2.attendance ∧
      ∃ added, (markAttendance tz clk s batch).2.attendance = s.attendance ++ added := by
  have hne : batch ≠ [] := List.ne_nil_of_mem he
  have hmem := specMarkBatch_collects tz clk e student r hrid
    (fun j => (hday j).symm ▸ hsame) batch 0 s (fun x hx => (hvalid x hx).2) he hst hr
  have hpos : (specMarkBatch tz clk 0 s batch).2.length > 0 :=
    List.length_pos_of_mem hmem
  rw [markAttendance_eq_spec tz clk s batch hne hvalid]
  refine ⟨(specMarkBatch tz clk 0 s batch).2, ?_, hmem, ?_, _, rfl⟩
  · simp only [hpos, if_true]
  · exact List.mem_append_left _ hr

theorem markAttendance_already_marked_witness :
    ((∀ j, startOfDay 0 (noonClock j) = 86400000) ∧
        (∀ x ∈ balaThenAsha, ValidEntry x ∧ Resolves classStore.users x) ∧
        ({ rollNumber := "R1", status := "absent" } : AttendanceEntry) ∈ balaThenAsha ∧
        findOneStudent classStore.users "R1" = some asha ∧
        ashaPresent ∈ classStore.attendance ∧ ashaPresent.studentId = asha._id ∧
        (86400000 : Timestamp) ≤ ashaPresent.createdAt) ∧
      ∃ l : List String,
        (markAttendance 0 noonClock classStore balaThenAsha).1 =
          AttendanceResponse.alreadyMarked l ∧
        "R1" ∈ l ∧
        ashaPresent ∈ (markAttendance 0 noonClock classStore balaThenAsha).2.attendance ∧
        ∃ added, (markAttendance 0 noonClock classStore balaThenAsha).2.attendance =
          classStore.attendance ++ added :=
  ⟨⟨startOfDay_noonClock, by decide, by decide, by decide, by decide, by decide, by decide⟩,
    markAttendance_already_marked 0 noonClock classStore balaThenAsha
      { rollNumber := "R1", status := "absent" } asha ashaPresent 86400000
      startOfDay_noonClock (by decide) (by decide) (by decide) (by decide) (by decide)
      (by decide)⟩

theorem onePerDay_save (tz : Int) (attendance : List AttendanceRecord)
    (a : AttendanceRecord) (since : Timestamp)
    (hone : OnePerDay tz attendance)
    (hnone : ∀ r ∈ attendance, r.studentId = a.studentId → r.createdAt < since)
    (hsince : since ≤ startOfDay tz a.createdAt) :
    OnePerDay tz (attendance ++ [a]) := by
  unfold OnePerDay
  rw [List.pairwise_append]
  refine ⟨hone, List.pairwise_singleton _ _, ?_⟩
  intro x hx y hy hid
  rw [List.mem_singleton.mp hy] at hid ⊢
  have h1 : startOfDay tz x.createdAt ≤ x.createdAt := startOfDay_le tz x.createdAt
  have h2 : x.createdAt < since := hnone x hx hid
  exact ne_of_lt (lt_of_le_of_lt h1 (lt_of_lt_of_le h2 hsince))

theorem markLoop_onePerDay (tz : Int) (clk : Nat → Timestamp) (hmono : Monotone clk)
    (batch : List AttendanceEntry) :
    ∀ (i : Nat) (s : Store) (recs : List AttendanceRecord) (marked : List String),
      OnePerDay tz s.attendance →
      (∀ r ∈ s.attendance, r.createdAt ≤ clk (2 * i)) →
      OnePerDay tz (markLoop tz clk i s batch recs marked).2.attendance ∧
        ∀ r ∈ (markLoop tz clk i s batch recs marked).2.attendance,
          r.createdAt ≤ clk (2 * (i + batch.length)) := by
  induction batch with
  | nil =>
      intro i s recs marked hone hpast
      rw [markLoop]
      split <;> exact ⟨hone, hpast⟩
  | cons e es ih =>
      intro i s recs marked hone hpast
      have hlen : 2 * (i + (e :: es).length) = 2 * (i + 1 + es.length) := by
        simp only [List.length_cons]; omega
      have hstay : OnePerDay tz s.attendance ∧
          ∀ r ∈ s.attendance, r.createdAt ≤ clk (2 * (i + (e :: es).length)) :=
        ⟨hone, fun r hr => le_trans (hpast r hr) (hmono (by omega))⟩
      rw [markLoop]
      split
      · exact hstay
      · cases hstudent : findOneStudent s.users e.rollNumber with
        | none => exact hstay
        | some student =>
            dsimp only
            cases hfind : findOneAttendance s.attendance student._id
                (startOfDay tz (clk (2 * i))) with
            | some r0 =>
                rw [hlen]
                exact ih (i + 1) s _ _ hone
                  (fun r hr => le_trans (hpast r hr) (hmono (by omega)))
            | none =>
                rw [hlen]
                refine ih (i + 1) _ _ _ ?_ ?_
                · exact onePerDay_save tz s.attendance _ (startOfDay tz (clk (2 * i))) hone
                    ((findOneAttendance_eq_none_iff _ _ _).mp hfind)
                    (startOfDay_mono tz _ _ (hmono (by omega)))
                · intro r hr
                  have hr2 : r ∈ s.attendance ++
                      [newAttendance s student._id e.rollNumber e.status
                        (clk (2 * i + 1))] := hr
                  rw [List.mem_append, List.mem_singleton] at hr2
                  rcases hr2 with hr2 | hr2
                  · exact le_trans (hpast r hr2) (hmono (by omega))
                  · rw [hr2]
                    exact hmono (by omega)

/-- C6: one record per student per local calendar day is preserved by
`POST /attendance`.  If no student has two records created on the same
calendar day, no record is dated after the time at which the call starts, and
the clock does not run backwards, then, whatever the batch (repeated roll
numbers, invalid or unknown entries) and whatever the response, no student has
two records created on the same calendar day in the store after the call, and
no record is dated after the time at which the call ends; so the property holds
again before the next call.  Uniqueness of roll numbers is not needed. -/
theorem markAttendance_onePerDay (tz : Int) (clk : Nat → Timestamp) (s : Store)
    (batch : List AttendanceEntry)
    (hmono : Monotone clk)
    (hone : OnePerDay tz s.attendance)
    (hpast : ∀ r ∈ s.attendance, r.createdAt ≤ clk 0) :
    OnePerDay tz (markAttendance tz clk s batch).2.attendance ∧
      ∀ r ∈ (markAttendance tz clk s batch).2.attendance,
        r.createdAt ≤ clk (2 * batch.length) := by
  unfold markAttendance
  split
  · exact ⟨hone, fun r hr => le_trans (hpast r hr) (hmono (Nat.zero_le _))⟩
  · have h := markLoop_onePerDay tz clk hmono batch 0 s [] [] hone hpast
    rw [Nat.zero_add] at h
    exact h

theorem markAttendance_onePerDay_witness :
    (Monotone noonClock ∧ OnePerDay 0 classStore.attendance ∧
        ∀ r ∈ classStore.attendance, r.createdAt ≤ noonClock 0) ∧
      (OnePerDay 0 (markAttendance 0 noonClock classStore balaTwice).2.attendance ∧
        ∀ r ∈ (markAttendance 0 noonClock classStore balaTwice).2.attendance,
          r.createdAt ≤ noonClock (2 * balaTwice.length)) ∧
      (markAttendance 0 noonClock classStore balaTwice).2.attendance =
        [ashaPresent, balaPresent] :=
  have hone : OnePerDay 0 classStore.attendance := List.pairwise_singleton _ _
  have hpast : ∀ r ∈ classStore.attendance, r.createdAt ≤ noonClock 0 := by
    intro r hr
    rw [List.mem_singleton.mp hr]
    decide
  ⟨⟨monotone_const, hone, hpast⟩,
    markAttendance_onePerDay 0 noonClock classStore balaTwice monotone_const hone hpast,
    by decide⟩

end SmartAttend
